import Mathlib

/-!
Shallow embedding of the ecom-project scripts.

The repository is a set of Python scripts over a SQLite database:
a data generator (`generatedata.py`), a CSV ingestion script
(`ingest_to_sqlite.py`), a payment reconciliation script
(`check_payment_amounts.py`) and three monthly sales trend / forecast
scripts (`run_sales_forecast.py`, `run_sales_forecast_simple.py`,
`run_sales_forecast_compatible.py`, plus a chart-producing variant).

Modelling conventions:
* SQLite `REAL` / Python `float` amounts are modelled as exact rationals.
* SQL `NULL`-able values are modelled as `Option` values; a SQL `CASE WHEN`
  comparison involving `NULL` is not true, so the `ELSE` branch is taken.
* Dates stored in the database are modelled as year/month/day records;
  `strftime` extraction of the `YYYY-MM` group key is modelled as the
  `(year, month)` pair (4-digit years make the textual and the pairwise
  lexicographic orders coincide).
* Randomness in the generator is modelled by an arbitrary draw function
  `g : Nat → Nat`; `random.randint`, `random.choice`, `random.sample` and
  `random.uniform` are modelled so that they return values in the
  documented range for every draw, exactly as the Python APIs guarantee.
-/

namespace Ecom

/-- A calendar date as stored in the SQLite database (ISO `YYYY-MM-DD`). -/
structure Date where
  year : Nat
  month : Nat
  day : Nat
deriving DecidableEq, Repr

/-- Row of the `orders` table. -/
structure Order where
  order_id : Nat
  customer_id : Nat
  order_date : Date
  status : String
deriving DecidableEq, Repr

/-- Row of the `order_items` table. -/
structure OrderItem where
  item_id : Nat
  order_id : Nat
  product_id : Nat
  quantity : Int
  price : Rat
deriving DecidableEq, Repr

/-- Row of the `payments` table. -/
structure Payment where
  payment_id : Nat
  amount : Rat
  order_id : Nat
  payment_method : String
  payment_date : Date
deriving DecidableEq, Repr

/-- The part of the database state the analytical queries read. -/
structure DB where
  orders : List Order
  order_items : List OrderItem
  payments : List Payment
deriving DecidableEq, Repr

/-- SQLite `ROUND(x, 2)`: rounds to 2 decimal places, halves away from zero
(`Rat.floor` is the integer floor, `Rat.divInt` exact integer division). -/
def sqlRound2 (x : Rat) : Rat :=
  if 0 ≤ x then Rat.divInt (x * 100 + 1/2).floor 100
  else -(Rat.divInt ((-x) * 100 + 1/2).floor 100)

/-- Python `round(x, 2)`: rounds to 2 decimal places, halves to even. -/
def pyRound2 (x : Rat) : Rat :=
  let f : Int := (x * 100).floor
  let r : Rat := x * 100 - Rat.divInt f 1
  if r < 1/2 then Rat.divInt f 100
  else if 1/2 < r then Rat.divInt (f + 1) 100
  else if f % 2 = 0 then Rat.divInt f 100 else Rat.divInt (f + 1) 100

/-- The `YYYY-MM` group key `strftime` extracts from an order date. -/
def ym (d : Date) : Nat × Nat := (d.year, d.month)

/-- The join `orders o INNER JOIN order_items oi ON o.order_id = oi.order_id`. -/
def joinOI (db : DB) : List (Order × OrderItem) :=
  db.orders.flatMap fun o =>
    (db.order_items.filter fun i => i.order_id == o.order_id).map fun i => (o, i)

/-- The `ORDER BY year, month_num` order: lexicographic on `(year, month)` keys. -/
def keyLe (a b : Nat × Nat) : Prop :=
  a.1 < b.1 ∨ (a.1 = b.1 ∧ a.2 ≤ b.2)

instance : DecidableRel keyLe := fun a b =>
  inferInstanceAs (Decidable (a.1 < b.1 ∨ (a.1 = b.1 ∧ a.2 ≤ b.2)))

instance : IsTotal (Nat × Nat) keyLe :=
  ⟨by intro a b; unfold keyLe; omega⟩

instance : IsTrans (Nat × Nat) keyLe :=
  ⟨by intro a b c; unfold keyLe; omega⟩

/-- The group keys of the `monthly_revenue` CTE
(`GROUP BY strftime('%Y-%m', o.order_date)`), in `ORDER BY year, month_num`
order: the distinct months of orders that have at least one order item. -/
def monthKeys (db : DB) : List (Nat × Nat) :=
  List.insertionSort keyLe (((joinOI db).map fun r => ym r.1.order_date).dedup)

/-- The aggregate `SUM(oi.quantity * oi.price)` for the month group `k`. -/
def total_revenue (db : DB) (k : Nat × Nat) : Rat :=
  (((joinOI db).filter fun r => ym r.1.order_date == k).map
    fun r => (r.2.quantity : Rat) * r.2.price).sum

/-- The aggregate `COUNT(DISTINCT o.order_id)` for the month group `k`. -/
def order_count (db : DB) (k : Nat × Nat) : Nat :=
  (((joinOI db).filter fun r => ym r.1.order_date == k).map
    fun r => r.1.order_id).dedup.length

/-- A result row of the monthly trend queries, restricted to the columns the
two query variants have in common (the month key and the six reported
values). -/
structure TrendRow where
  month : Nat × Nat
  monthly_revenue : Rat
  order_count : Nat
  previous_month_revenue : Rat
  revenue_change : Rat
  percent_change : Rat
  trend : String
deriving DecidableEq, Repr

/-- One output row of the window-function (`LAG`-based) trend query of
`run_sales_forecast_simple.py`, given the previous row's month key
(`LAG(total_revenue) OVER (ORDER BY year, month_num)`), `none` for the
first row. -/
def mkLagRow (db : DB) (prev : Option (Nat × Nat)) (k : Nat × Nat) : TrendRow :=
  let cur := total_revenue db k
  let prevRev : Option Rat := prev.map (total_revenue db)
  let change := cur - prevRev.getD 0
  { month := k
    monthly_revenue := sqlRound2 cur
    order_count := order_count db k
    previous_month_revenue := sqlRound2 (prevRev.getD 0)
    revenue_change := sqlRound2 change
    percent_change :=
      match prevRev with
      | some p => if 0 < p then sqlRound2 ((cur - p) * 100 / p) else 0
      | none => 0
    trend :=
      if 0 < change then "↑ Growing"
      else if change < 0 then "↓ Declining"
      else if change = 0 then "→ Stable"
      else "N/A" }

/-- The full result of the `LAG`-based trend query: each month row is paired
with the preceding month row in `(year, month)` order. -/
def lagQuery (db : DB) : List TrendRow :=
  let ks := monthKeys db
  (ks.zip (none :: ks.map some)).map fun kp => mkLagRow db kp.2 kp.1

/-- One output row of the self-join trend query of
`run_sales_forecast_compatible.py` / `run_sales_forecast_with_graphs.py`.
The `LEFT JOIN ... ON (m2.year = m1.year AND m2.month_num = m1.month_num - 1)
OR (m2.year = m1.year - 1 AND ...)` matches the same-year previous calendar
month only: the cross-year branch compares the TEXT column `m2.year` against
the integer `m1.year - 1`, which is never equal in SQLite, so December is
never matched as January's previous month. -/
def mkSelfRow (db : DB) (k : Nat × Nat) : TrendRow :=
  let cur := total_revenue db k
  let prevRev : Option Rat :=
    if (k.1, k.2 - 1) ∈ monthKeys db then some (total_revenue db (k.1, k.2 - 1))
    else none
  let change := cur - prevRev.getD 0
  { month := k
    monthly_revenue := sqlRound2 cur
    order_count := order_count db k
    previous_month_revenue := sqlRound2 (prevRev.getD 0)
    revenue_change := sqlRound2 change
    percent_change :=
      match prevRev with
      | some p => if 0 < p then sqlRound2 ((cur - p) * 100 / p) else 0
      | none => 0
    trend :=
      if 0 < change then "↑ Growing"
      else if change < 0 then "↓ Declining"
      else "→ Stable" }

/-- The full result of the self-join trend query. -/
def selfJoinQuery (db : DB) : List TrendRow :=
  (monthKeys db).map (mkSelfRow db)

/-- The three-month forecast computed in Python by
`run_sales_forecast_compatible.py` (and identically by
`run_sales_forecast_with_graphs.py`): `avg_growth` is the mean of the
nonzero `revenue_change` column values of the self-join query result, and
`last_month_revenue` is the last row's `monthly_revenue`. -/
def compatForecast (db : DB) (k : Nat) : Rat :=
  let results := selfJoinQuery db
  let revenue_changes := (results.map (·.revenue_change)).filter fun c => c ≠ 0
  let avg_growth :=
    if revenue_changes = [] then 0 else revenue_changes.sum / revenue_changes.length
  let last_month_revenue := ((results.map (·.monthly_revenue)).getLast?).getD 0
  last_month_revenue + avg_growth * k

/-- Modelled from the spec: the forecast the claim describes — revenue of the
most recent month plus `k` times the mean of the month-over-month revenue
deltas over all consecutive month pairs. -/
def claimForecast (db : DB) (k : Nat) : Rat :=
  let revs := (monthKeys db).map (total_revenue db)
  let deltas := (revs.zip revs.tail).map fun p => p.2 - p.1
  let avgDelta := if deltas = [] then 0 else deltas.sum / deltas.length
  revs.getLast?.getD 0 + avgDelta * k

/-! ### Reconciliation script (`check_payment_amounts.py`) -/

/-- The `ORDER BY o.order_id` order on orders. -/
def orderIdLe (a b : Order) : Prop := a.order_id ≤ b.order_id

instance : DecidableRel orderIdLe := fun a b =>
  inferInstanceAs (Decidable (a.order_id ≤ b.order_id))

instance : IsTotal Order orderIdLe :=
  ⟨by intro a b; unfold orderIdLe; omega⟩

instance : IsTrans Order orderIdLe :=
  ⟨by intro a b c; unfold orderIdLe; omega⟩

/-- The order items belonging to an order
(`LEFT JOIN order_items oi ON o.order_id = oi.order_id`). -/
def itemsOf (db : DB) (o : Order) : List OrderItem :=
  db.order_items.filter fun i => i.order_id == o.order_id

/-- The payments belonging to an order
(`LEFT JOIN payments p ON o.order_id = p.order_id`). -/
def paysOf (db : DB) (o : Order) : List Payment :=
  db.payments.filter fun p => p.order_id == o.order_id

/-- The order's item total, `SUM(oi.quantity * oi.price)` over its own items
(`0` when it has none, as `COALESCE` turns the `NULL` sum into `0`). -/
def itemTotal (db : DB) (o : Order) : Rat :=
  ((itemsOf db o).map fun i => (i.quantity : Rat) * i.price).sum

/-- A result row of the reconciliation query of `check_payment_amounts.py`. -/
structure ReconRow where
  order_id : Nat
  order_total : Rat
  payment_amount : Option Rat
  status_check : String
  difference : Option Rat
deriving DecidableEq, Repr

/-- The reconciliation rows produced for one order. The query joins the order
with its items and its payments and groups by
`(o.order_id, o.order_date, o.status, p.amount)`: an order with no payment
yields one group with a `NULL` amount (the `NULL`-involving `CASE`
comparison is not true, so the `ELSE 'MISMATCH'` branch is taken and the
difference is `NULL`); otherwise there is one group per distinct payment
amount, whose item rows are repeated once per payment carrying that amount,
so `SUM(oi.quantity * oi.price)` is the item total multiplied by that
payment count. -/
def reconRowsForOrder (db : DB) (o : Order) : List ReconRow :=
  let t := itemTotal db o
  match paysOf db o with
  | [] => [⟨o.order_id, t, none, "MISMATCH", none⟩]
  | ps =>
    ((ps.map (·.amount)).dedup).map fun a =>
      let cnt := (ps.filter fun p => p.amount == a).length
      let ot := (cnt : Rat) * t
      ⟨o.order_id, ot, some a,
        if |ot - a| < 1/100 then "MATCH" else "MISMATCH", some |ot - a|⟩

/-- The full result set of the reconciliation query, `ORDER BY o.order_id`. -/
def statusQuery (db : DB) : List ReconRow :=
  (List.insertionSort orderIdLe db.orders).flatMap (reconRowsForOrder db)

/-- The count `matching = sum(1 for row in results if row[5] == 'MATCH')`. -/
def matchingCount (db : DB) : Nat :=
  ((statusQuery db).filter fun r => r.status_check == "MATCH").length

/-- The count `mismatching = total_orders - matching`. -/
def mismatchingCount (db : DB) : Nat :=
  (statusQuery db).length - matchingCount db

/-- The "orders without payments" query: orders whose left-joined payment row
is `NULL` (`WHERE p.payment_id IS NULL`), grouped by order id, with their
item totals. Output order is modelled as table order; the claims about this
query only concern which rows are listed. -/
def ordersWithoutPayments (db : DB) : List (Nat × Rat) :=
  (db.orders.filter fun o => paysOf db o = []).map fun o => (o.order_id, itemTotal db o)

/-- The "payments without orders" query: payments whose left-joined order row
is `NULL` (`WHERE o.order_id IS NULL`). -/
def orphanPayments (db : DB) : List (Nat × Nat × Rat) :=
  (db.payments.filter fun p => ¬ db.orders.any fun o => o.order_id == p.order_id).map
    fun p => (p.payment_id, p.order_id, p.amount)

/-! ### Date parsing in the ingestion script (`ingest_to_sqlite.py`)

`datetime.strptime(s, '%m/%d/%Y')` and `datetime.strptime(s, '%Y-%m-%d')`
are modelled character by character after CPython's `_strptime`
implementation: `%m` matches `1[0-2]|0[1-9]|[1-9]`, `%d` matches
`3[01]|[12]\x5cd|0[1-9]|[1-9]`, `%Y` matches exactly four digits, the whole
string must be consumed, and the parsed numbers must form a valid calendar
date (`datetime.date` validates the day against the month length, with
leap years). -/

/-- Numeric value of a digit character. -/
def digitVal (c : Char) : Nat := c.toNat - 48

/-- Match CPython's `%m` regex `1[0-2]|0[1-9]|[1-9]` at the head of the
character list, returning the month and the rest. -/
def matchMonth : List Char → Option (Nat × List Char)
  | c1 :: c2 :: rest =>
    if c1 = '1' ∧ '0' ≤ c2 ∧ c2 ≤ '2' then some (10 + digitVal c2, rest)
    else if c1 = '0' ∧ '1' ≤ c2 ∧ c2 ≤ '9' then some (digitVal c2, rest)
    else if '1' ≤ c1 ∧ c1 ≤ '9' then some (digitVal c1, c2 :: rest)
    else none
  | [c1] => if '1' ≤ c1 ∧ c1 ≤ '9' then some (digitVal c1, []) else none
  | [] => none

/-- Match CPython's `%d` regex `3[01]|[12]\x5cd|0[1-9]|[1-9]` at the head of
the character list, returning the day and the rest. -/
def matchDay : List Char → Option (Nat × List Char)
  | c1 :: c2 :: rest =>
    if c1 = '3' ∧ ('0' ≤ c2 ∧ c2 ≤ '1') then some (30 + digitVal c2, rest)
    else if (c1 = '1' ∨ c1 = '2') ∧ c2.isDigit then
      some (10 * digitVal c1 + digitVal c2, rest)
    else if c1 = '0' ∧ '1' ≤ c2 ∧ c2 ≤ '9' then some (digitVal c2, rest)
    else if '1' ≤ c1 ∧ c1 ≤ '9' then some (digitVal c1, c2 :: rest)
    else none
  | [c1] => if '1' ≤ c1 ∧ c1 ≤ '9' then some (digitVal c1, []) else none
  | [] => none

/-- Match CPython's `%Y` regex: exactly four digits. -/
def matchYear4 : List Char → Option (Nat × List Char)
  | c1 :: c2 :: c3 :: c4 :: rest =>
    if c1.isDigit ∧ c2.isDigit ∧ c3.isDigit ∧ c4.isDigit then
      some (1000 * digitVal c1 + 100 * digitVal c2 + 10 * digitVal c3 + digitVal c4, rest)
    else none
  | _ => none

/-- Match a literal separator character. -/
def matchLit (c : Char) : List Char → Option (List Char)
  | c' :: rest => if c' = c then some rest else none
  | [] => none

/-- Gregorian leap year, as `calendar.isleap` / `datetime` use it. -/
def isLeap (y : Nat) : Bool := y % 4 = 0 && (y % 100 ≠ 0 || y % 400 = 0)

/-- Number of days in a month, as `datetime.date` validates it. -/
def daysInMonth (y m : Nat) : Nat :=
  if m = 2 then (if isLeap y then 29 else 28)
  else if m = 4 ∨ m = 6 ∨ m = 9 ∨ m = 11 then 30
  else 31

/-- Python `datetime.date(y, m, d)` construction: the year must be at least
`MINYEAR = 1` and the day must fit the month, else `ValueError`. -/
def mkValidDate (y m d : Nat) : Option Date :=
  if 1 ≤ y ∧ d ≤ daysInMonth y m then some ⟨y, m, d⟩ else none

/-- Python `datetime.strptime(s, '%m/%d/%Y')`, returning `none` for `ValueError`. -/
def strptimeMDY (s : String) : Option Date := do
  let (m, r1) ← matchMonth s.data
  let r2 ← matchLit '/' r1
  let (d, r3) ← matchDay r2
  let r4 ← matchLit '/' r3
  let (y, r5) ← matchYear4 r4
  match r5 with
  | [] => mkValidDate y m d
  | _ => none

/-- Python `datetime.strptime(s, '%Y-%m-%d')`, returning `none` for `ValueError`. -/
def strptimeYMD (s : String) : Option Date := do
  let (y, r1) ← matchYear4 s.data
  let r2 ← matchLit '-' r1
  let (m, r3) ← matchMonth r2
  let r4 ← matchLit '-' r3
  let (d, r5) ← matchDay r4
  match r5 with
  | [] => mkValidDate y m d
  | _ => none

/-- The date parsing done for `order_date` and `payment_date` during
ingestion: try `MM/DD/YYYY`; on `ValueError` fall back to `YYYY-MM-DD`; if
that also fails the `ValueError` propagates (modelled as `Except.error`). -/
def parseIngestDate (s : String) : Except String Date :=
  match strptimeMDY s with
  | some d => .ok d
  | none =>
    match strptimeYMD s with
    | some d => .ok d
    | none => .error s

/-! ### Ingestion script (`ingest_to_sqlite.py`) -/

/-- Python `int(s)` on a CSV field: an optional sign followed by digits. -/
def pyInt (s : String) : Except String Int :=
  let digits : List Char → Option Nat := fun ds =>
    if ds ≠ [] ∧ ds.all Char.isDigit then
      some (ds.foldl (fun n c => 10 * n + digitVal c) 0)
    else none
  match s.data with
  | '-' :: ds => match digits ds with
    | some n => .ok (-(n : Int))
    | none => .error s
  | '+' :: ds => match digits ds with
    | some n => .ok (n : Int)
    | none => .error s
  | ds => match digits ds with
    | some n => .ok (n : Int)
    | none => .error s

/-- Python `float(s)` on a CSV field: an optional sign, then digits with an
optional decimal point, as an exact rational. -/
def pyFloat (s : String) : Except String Rat :=
  let digitsVal : List Char → Rat := fun ds =>
    (ds.foldl (fun n c => 10 * n + digitVal c) 0 : Nat)
  let body : List Char → Option Rat := fun ds =>
    match ds.splitOn '.' with
    | [ip] =>
      if ip ≠ [] ∧ ip.all Char.isDigit then some (digitsVal ip) else none
    | [ip, fp] =>
      if (ip ≠ [] ∨ fp ≠ []) ∧ ip.all Char.isDigit ∧ fp.all Char.isDigit then
        some (digitsVal ip + digitsVal fp / (10 : Rat) ^ fp.length)
      else none
    | _ => none
  match s.data with
  | '-' :: ds => match body ds with
    | some q => .ok (-q)
    | none => .error s
  | '+' :: ds => match body ds with
    | some q => .ok q
    | none => .error s
  | ds => match body ds with
    | some q => .ok q
    | none => .error s

/-- A SQLite table with an `INTEGER PRIMARY KEY`: at most one row per key. -/
def Table (α : Type) : Type := Int → Option α

/-- The `INSERT OR REPLACE` statement: the incoming row replaces any row with its key. -/
def upsert (t : Table α) (k : Int) (v : α) : Table α :=
  fun k' => if k' = k then some v else t k'

/-- The call `executemany('INSERT OR REPLACE INTO ...', rows)`: upsert the rows in
order. -/
def upsertAll (t : Table α) (rows : List (Int × α)) : Table α :=
  rows.foldl (fun t r => upsert t r.1 r.2) t

/-- The five tables `ingest_to_sqlite.py` creates and loads. -/
structure SqliteDB where
  customers : Table (String × String × String × String × String)
  products : Table (String × String × Rat)
  orders : Table (Int × Date × String)
  order_items : Table (Int × Int × Int × Rat)
  payments : Table (Rat × Int × String × Date)

attribute [ext] SqliteDB

/-- A `customers.csv` record as `csv.DictReader` yields it. -/
structure CustomerCsvRow where
  customer_id : String
  customer_name : String
  email : String
  phone_number : String
  city : String
  country : String
deriving DecidableEq, Repr

/-- A `products.csv` record. -/
structure ProductCsvRow where
  product_id : String
  product_name : String
  category : String
  price : String
deriving DecidableEq, Repr

/-- An `orders.csv` record. -/
structure OrderCsvRow where
  order_id : String
  customer_id : String
  order_date : String
  status : String
deriving DecidableEq, Repr

/-- An `order_items.csv` record. -/
structure ItemCsvRow where
  item_id : String
  order_id : String
  product_id : String
  quantity : String
  price : String
deriving DecidableEq, Repr

/-- A `payments.csv` record. -/
structure PaymentCsvRow where
  payment_id : String
  amount : String
  order_id : String
  payment_method : String
  payment_date : String
deriving DecidableEq, Repr

/-- The set of CSV input files the ingestion script reads. -/
structure CsvFiles where
  customers : List CustomerCsvRow
  products : List ProductCsvRow
  orders : List OrderCsvRow
  order_items : List ItemCsvRow
  payments : List PaymentCsvRow
deriving DecidableEq, Repr

/-- Parse one customers row into its keyed tuple. -/
def parseCustomerRow (r : CustomerCsvRow) :
    Except String (Int × (String × String × String × String × String)) := do
  let cid ← pyInt r.customer_id
  pure (cid, (r.customer_name, r.email, r.phone_number, r.city, r.country))

/-- Parse one products row into its keyed tuple. -/
def parseProductRow (r : ProductCsvRow) :
    Except String (Int × (String × String × Rat)) := do
  let pid ← pyInt r.product_id
  let price ← pyFloat r.price
  pure (pid, (r.product_name, r.category, price))

/-- Parse one orders row into its keyed tuple; the date goes through the
two-format fallback. -/
def parseOrderRow (r : OrderCsvRow) :
    Except String (Int × (Int × Date × String)) := do
  let d ← parseIngestDate r.order_date
  let oid ← pyInt r.order_id
  let cid ← pyInt r.customer_id
  pure (oid, (cid, d, r.status))

/-- Parse one order_items row into its keyed tuple. -/
def parseItemRow (r : ItemCsvRow) :
    Except String (Int × (Int × Int × Int × Rat)) := do
  let iid ← pyInt r.item_id
  let oid ← pyInt r.order_id
  let pid ← pyInt r.product_id
  let q ← pyInt r.quantity
  let price ← pyFloat r.price
  pure (iid, (oid, pid, q, price))

/-- Parse one payments row into its keyed tuple; the date goes through the
two-format fallback. -/
def parsePaymentRow (r : PaymentCsvRow) :
    Except String (Int × (Rat × Int × String × Date)) := do
  let d ← parseIngestDate r.payment_date
  let pid ← pyInt r.payment_id
  let amount ← pyFloat r.amount
  let oid ← pyInt r.order_id
  pure (pid, (amount, oid, r.payment_method, d))

/-- Parse a list of CSV records in order, stopping at the first failing row,
as the row-building `for` loops do when a parse raises. -/
def mapE {α β : Type} (f : α → Except String β) : List α → Except String (List β)
  | [] => .ok []
  | a :: as => do
    let b ← f a
    let bs ← mapE f as
    pure (b :: bs)

/-- One run of the ingestion script on a database state: parse every CSV row
and upsert all rows in file order. A raised parse exception (`ValueError`)
aborts the script before `conn.commit()`, so the open transaction is rolled
back and nothing is applied; this is modelled by returning `Except.error`. -/
def ingest (csv : CsvFiles) (db : SqliteDB) : Except String SqliteDB := do
  let cs ← mapE parseCustomerRow csv.customers
  let ps ← mapE parseProductRow csv.products
  let os ← mapE parseOrderRow csv.orders
  let its ← mapE parseItemRow csv.order_items
  let pys ← mapE parsePaymentRow csv.payments
  pure
    { customers := upsertAll db.customers cs
      products := upsertAll db.products ps
      orders := upsertAll db.orders os
      order_items := upsertAll db.order_items its
      payments := upsertAll db.payments pys }

/-- The database state after running the ingestion script: the committed
new state on success, the unchanged previous state when the script raises. -/
def runIngest (csv : CsvFiles) (db : SqliteDB) : SqliteDB :=
  match ingest csv db with
  | .ok db' => db'
  | .error _ => db

/-! ### Data generator (`generatedata.py`)

Randomness is modelled by an arbitrary draw function `g : Nat → Nat`; each
random call site uses its own draw index, and every modelled primitive
returns a value in the documented range for every possible draw, exactly as
the Python `random` API guarantees (`random.sample` is modelled as an
in-population selection; no claim depends on its distinctness).

Generated dates are modelled as day indices from the generator's fixed
range: day `0` is `2006-01-01` (`start_date`) and day `729` is `2007-12-31`
(`end_date`); `timedelta(days=k)` is `+ k`. -/

def NUM_CUSTOMERS : Nat := 100
def NUM_PRODUCTS : Nat := 50
def NUM_ORDERS : Nat := 200
def MIN_ITEMS_PER_ORDER : Nat := 1
def MAX_ITEMS_PER_ORDER : Nat := 5

def PAYMENT_METHODS : List String :=
  ["UPI", "Card", "Wallet", "Net Banking", "Cash on Delivery"]

def ORDER_STATUSES : List String :=
  ["pending", "processing", "shipped", "delivered", "cancelled"]

/-- Python `random.randint(lo, hi)`: an integer in `[lo, hi]`, both ends included. -/
def pyRandint (lo hi n : Nat) : Nat := lo + n % (hi + 1 - lo)

/-- Python `random.choice(l)`: an element of the non-empty list `l`. -/
def pyChoice (l : List String) (n : Nat) : String := l.getD (n % l.length) ""

/-- Python `random.uniform(lo, hi)`: a number in `[lo, hi]`. -/
def pyUniform (lo hi : Rat) (n : Nat) : Rat := lo + (hi - lo) * (n % 1000) / 1000

/-- A Faker-produced string (name, email, city, ...): an arbitrary string
determined by the draw. -/
def fakeStr (tag : String) (n : Nat) : String := tag ++ toString n

/-- Day index of `start_date = datetime(2006, 1, 1)`. -/
def genStartDay : Nat := 0

/-- Day index of `end_date = datetime(2007, 12, 31)`: 2006 and 2007 have 365
days each, so the range holds 730 days, indexed 0 through 729. -/
def genEndDay : Nat := 729

/-- Faker `fake.date_between(start_date, end_date)`: a day in the range. -/
def fakeDateBetween (n : Nat) : Nat := genStartDay + n % 730

/-- A generated `customers.csv` row. -/
structure GCustomer where
  customer_id : Nat
  customer_name : String
  email : String
  phone_number : String
  city : String
  country : String
deriving DecidableEq, Repr

/-- A generated `products.csv` row. -/
structure GProduct where
  product_id : Nat
  product_name : String
  category : String
  price : Rat
deriving DecidableEq, Repr

/-- A generated `orders.csv` row (the date as a day index). -/
structure GOrder where
  order_id : Nat
  customer_id : Nat
  order_date : Nat
  status : String
deriving DecidableEq, Repr

/-- A generated `order_items.csv` row. -/
structure GItem where
  item_id : Nat
  order_id : Nat
  product_id : Nat
  quantity : Nat
  price : Rat
deriving DecidableEq, Repr

/-- A generated `payments.csv` row (the date as a day index). -/
structure GPayment where
  payment_id : Nat
  amount : Rat
  order_id : Nat
  payment_method : String
  payment_date : Nat
deriving DecidableEq, Repr

def categories : List String :=
  ["Electronics", "Clothing", "Books", "Home & Kitchen", "Sports", "Toys",
   "Beauty", "Food"]

/-- The generated customers: ids `1` through `NUM_CUSTOMERS`. -/
def genCustomers (g : Nat → Nat) : List GCustomer :=
  (List.range NUM_CUSTOMERS).map fun j =>
    let i := j + 1
    ⟨i, fakeStr "name" (g (6 * i)), fakeStr "email" (g (6 * i + 1)),
      fakeStr "phone" (g (6 * i + 2)), fakeStr "city" (g (6 * i + 3)),
      fakeStr "country" (g (6 * i + 4))⟩

/-- The generated products: ids `1` through `NUM_PRODUCTS`, prices
`round(random.uniform(10.0, 1000.0), 2)`. -/
def genProducts (g : Nat → Nat) : List GProduct :=
  (List.range NUM_PRODUCTS).map fun j =>
    let i := j + 1
    ⟨i, fakeStr "product" (g (700 + 3 * i)), pyChoice categories (g (700 + 3 * i + 1)),
      pyRound2 (pyUniform 10 1000 (g (700 + 3 * i + 2)))⟩

/-- The dict from product id to current price built over the products list. -/
def productPrice (g : Nat → Nat) (pid : Nat) : Rat :=
  (((genProducts g).find? fun p => p.product_id == pid).map (·.price)).getD 0

/-- The generated orders: ids `1` through `NUM_ORDERS`, customer ids drawn
with `random.randint(1, NUM_CUSTOMERS)`, dates with `fake.date_between`. -/
def genOrders (g : Nat → Nat) : List GOrder :=
  (List.range NUM_ORDERS).map fun j =>
    let i := j + 1
    ⟨i, pyRandint 1 NUM_CUSTOMERS (g (2000 + 3 * i)),
      fakeDateBetween (g (2000 + 3 * i + 1)),
      pyChoice ORDER_STATUSES (g (2000 + 3 * i + 2))⟩

/-- The order-items loop body: for each order, draw
`num_items = random.randint(MIN_ITEMS_PER_ORDER, MAX_ITEMS_PER_ORDER)`,
pick `min(num_items, NUM_PRODUCTS)` products, and emit one item per pick
with a drawn quantity and a price jittered around the product price;
`item_id` is the running counter. -/
def genItemsAux (g : Nat → Nat) : List GOrder → Nat → List GItem
  | [], _ => []
  | o :: os, nextId =>
    let base := 3000 + 20 * o.order_id
    let num_items := pyRandint MIN_ITEMS_PER_ORDER MAX_ITEMS_PER_ORDER (g base)
    let k := min num_items NUM_PRODUCTS
    let its := (List.range k).map fun t =>
      let pid := 1 + g (base + 3 * t + 1) % NUM_PRODUCTS
      let quantity := pyRandint 1 5 (g (base + 3 * t + 2))
      let price := pyRound2 (productPrice g pid * pyUniform (9/10) (11/10) (g (base + 3 * t + 3)))
      (⟨nextId + t, o.order_id, pid, quantity, price⟩ : GItem)
    its ++ genItemsAux g os (nextId + k)

/-- The generated order items, the id counter starting at `1`. -/
def genOrderItems (g : Nat → Nat) : List GItem :=
  genItemsAux g (genOrders g) 1

/-- The `order_totals` dict built by
`order_totals[oid] = order_totals.get(oid, 0) + quantity * price`. -/
def order_totals (items : List GItem) : Nat → Option Rat :=
  items.foldl
    (fun acc it => fun oid =>
      if oid = it.order_id then some ((acc it.order_id).getD 0 + (it.quantity : Rat) * it.price)
      else acc oid)
    (fun _ => none)

/-- The payments loop body: one payment per order, in order, `payment_id`
counting up from its start value; the amount is the order's accumulated
total (or a uniform draw when the order has no items, the dict default)
rounded to 2 decimals, and the payment date is the order date plus
`random.randint(0, 7)` days, clamped to `end_date`. -/
def genPaymentsAux (g : Nat → Nat) (items : List GItem) :
    List GOrder → Nat → List GPayment
  | [], _ => []
  | o :: os, payment_id =>
    let base := 8000 + 3 * o.order_id
    let amount := pyRound2
      (match order_totals items o.order_id with
       | some t => t
       | none => pyUniform 50 500 (g base))
    let days_after_order := pyRandint 0 7 (g (base + 1))
    let pd := o.order_date + days_after_order
    ⟨payment_id, amount, o.order_id, pyChoice PAYMENT_METHODS (g (base + 2)),
      if genEndDay < pd then genEndDay else pd⟩ :: genPaymentsAux g items os (payment_id + 1)

/-- The generated payments, the id counter starting at `1`. -/
def genPayments (g : Nat → Nat) : List GPayment :=
  genPaymentsAux g (genOrderItems g) (genOrders g) 1

/-! ### Concrete database states used as test inputs -/

/-- The last value inserted for a key in a keyed row list; later rows win,
as with successive `INSERT OR REPLACE` statements. -/
def lastVal {α : Type} : List (Int × α) → Int → Option α
  | [], _ => none
  | r :: rs, k =>
    match lastVal rs k with
    | some v => some v
    | none => if r.1 = k then some r.2 else none

/-- Orders table wellformedness: `order_id` is the primary key. -/
def nodupOrderIds (db : DB) : Prop :=
  (db.orders.map (·.order_id)).Nodup

/-- Placeholder row used as the out-of-range default when indexing a query
result. -/
def dummyRow : TrendRow := ⟨(0, 0), 0, 0, 0, 0, 0, ""⟩

/-- Two months of revenue, 100 then 130: month-over-month delta 30. -/
def exDB1 : DB :=
  { orders := [⟨1, 1, ⟨2006, 1, 10⟩, "delivered"⟩, ⟨2, 1, ⟨2006, 2, 10⟩, "delivered"⟩]
    order_items := [⟨1, 1, 1, 1, 100⟩, ⟨2, 2, 1, 1, 130⟩]
    payments := [] }

/-- Two months of revenue across a year boundary: 2006-12 then 2007-01. -/
def exDB2 : DB :=
  { orders := [⟨1, 1, ⟨2006, 12, 10⟩, "delivered"⟩, ⟨2, 1, ⟨2007, 1, 10⟩, "delivered"⟩]
    order_items := [⟨1, 1, 1, 1, 100⟩, ⟨2, 2, 1, 1, 150⟩]
    payments := [] }

/-- Two consecutive months with revenues 3 and 4: the exact percent change
100/3 is not representable in two decimal places. -/
def exDB3 : DB :=
  { orders := [⟨1, 1, ⟨2006, 1, 10⟩, "delivered"⟩, ⟨2, 1, ⟨2006, 2, 10⟩, "delivered"⟩]
    order_items := [⟨1, 1, 1, 1, 3⟩, ⟨2, 2, 1, 1, 4⟩]
    payments := [] }

/-- One order with item total 10 and two payments of 10 each. -/
def exDB8 : DB :=
  { orders := [⟨1, 1, ⟨2006, 1, 10⟩, "delivered"⟩]
    order_items := [⟨1, 1, 1, 1, 10⟩]
    payments := [⟨1, 10, 1, "Card", ⟨2006, 1, 11⟩⟩, ⟨2, 10, 1, "Card", ⟨2006, 1, 12⟩⟩] }

/-- Order 1 exactly paid, order 2 unpaid, and an orphan payment for the
nonexistent order 99. -/
def exDB9 : DB :=
  { orders := [⟨1, 1, ⟨2006, 1, 10⟩, "delivered"⟩, ⟨2, 1, ⟨2006, 1, 11⟩, "pending"⟩]
    order_items := [⟨1, 1, 1, 1, 10⟩, ⟨2, 2, 1, 1, 7⟩]
    payments := [⟨1, 10, 1, "Card", ⟨2006, 1, 11⟩⟩, ⟨3, 9, 99, "Card", ⟨2006, 1, 13⟩⟩] }

/-- A freshly created, empty five-table database. -/
def emptySqliteDB : SqliteDB :=
  { customers := fun _ => none
    products := fun _ => none
    orders := fun _ => none
    order_items := fun _ => none
    payments := fun _ => none }

/-- A CSV input set whose single orders row has a date no format accepts. -/
def csvBadDate : CsvFiles :=
  { customers := []
    products := []
    orders := [⟨"1", "1", "garbage", "pending"⟩]
    order_items := []
    payments := [] }

end Ecom

/-! ## Theorems -/

namespace Ecom

/-- Applying a batch of keyed upserts to a table: each key now maps to the
last value inserted for it, keys untouched by the batch keep their value. -/
theorem upsertAll_apply {α : Type} (rows : List (Int × α)) (t : Table α) (k : Int) :
    upsertAll t rows k =
      match lastVal rows k with
      | some v => some v
      | none => t k := by
  induction rows generalizing t with
  | nil => rfl
  | cons r rs ih =>
    show upsertAll (upsert t r.1 r.2) rs k = _
    rw [ih]
    cases hl : lastVal rs k with
    | some v => simp [lastVal, hl]
    | none =>
      simp only [lastVal, hl, upsert]
      by_cases h : r.1 = k
      · subst h; simp
      · rw [if_neg (fun hk => h hk.symm), if_neg h]

/-- Re-running the same batch of upserts changes nothing. -/
theorem upsertAll_idem {α : Type} (t : Table α) (rows : List (Int × α)) :
    upsertAll (upsertAll t rows) rows = upsertAll t rows := by
  funext k
  rw [upsertAll_apply, upsertAll_apply]
  cases hl : lastVal rows k <;> rfl

/-- C5: ingestion is idempotent — for every set of CSV input files and every
starting database state, running the ingestion script twice leaves all five
tables (customers, products, orders, order_items, payments) exactly as
running it once, because every row is upserted keyed by its integer primary
key with `INSERT OR REPLACE`. -/
theorem C5_ingest_idempotent (csv : CsvFiles) (db : SqliteDB) :
    runIngest csv (runIngest csv db) = runIngest csv db := by
  unfold runIngest ingest
  cases h1 : mapE parseCustomerRow csv.customers with
  | error e => simp [bind, Except.bind]
  | ok cs =>
    cases h2 : mapE parseProductRow csv.products with
    | error e => simp [bind, Except.bind, h1]
    | ok ps =>
      cases h3 : mapE parseOrderRow csv.orders with
      | error e => simp [bind, Except.bind, h1, h2]
      | ok os =>
        cases h4 : mapE parseItemRow csv.order_items with
        | error e => simp [bind, Except.bind, h1, h2, h3]
        | ok its =>
          cases h5 : mapE parsePaymentRow csv.payments with
          | error e => simp [bind, Except.bind, h1, h2, h3, h4]
          | ok pys =>
            simp [bind, Except.bind, pure, Except.pure, upsertAll_idem]

/-- If any row of the list fails to parse, the whole row-building loop
fails. -/
theorem mapE_error_of_mem {α β : Type} (f : α → Except String β) (l : List α)
    (x : α) (hx : x ∈ l) (e : String) (hf : f x = .error e) :
    ∃ e2, mapE f l = .error e2 := by
  induction l with
  | nil => cases hx
  | cons a as ih =>
    cases hx with
    | head => exact ⟨e, by simp [mapE, hf, bind, Except.bind]⟩
    | tail _ hmem =>
      cases hfa : f a with
      | error e3 => exact ⟨e3, by simp [mapE, hfa, bind, Except.bind]⟩
      | ok b =>
        obtain ⟨e2, he2⟩ := ih hmem
        exact ⟨e2, by simp [mapE, hfa, he2, bind, Except.bind]⟩

/-- Whatever the other files hold, a failing orders row makes the whole
ingestion run fail. -/
theorem ingest_error_of_bad_order_date (csv : CsvFiles) (db : SqliteDB)
    (r : OrderCsvRow) (hr : r ∈ csv.orders)
    (hd : ∃ e, parseIngestDate r.order_date = .error e) :
    ∃ e2, ingest csv db = .error e2 := by
  obtain ⟨e, he⟩ := hd
  unfold ingest
  cases h1 : mapE parseCustomerRow csv.customers with
  | error e1 => exact ⟨e1, by simp [bind, Except.bind]⟩
  | ok cs =>
    cases h2 : mapE parseProductRow csv.products with
    | error e1 => exact ⟨e1, by simp [bind, Except.bind, h1]⟩
    | ok ps =>
      have hrow : parseOrderRow r = .error e := by
        unfold parseOrderRow
        simp [he, bind, Except.bind]
      obtain ⟨e2, he2⟩ := mapE_error_of_mem parseOrderRow csv.orders r hr e hrow
      exact ⟨e2, by simp [bind, Except.bind, h1, h2, he2]⟩

/-- C7: for every date string read during ingestion, parsing first tries the
`MM/DD/YYYY` format; if that raises, it falls back to `YYYY-MM-DD`; if both
formats fail, the `ValueError` propagates: the parse result is an error and
an ingestion run containing such a row produces no database state. -/
theorem C7_date_format_fallback :
    (∀ s d, strptimeMDY s = some d → parseIngestDate s = .ok d) ∧
    (∀ s d, strptimeMDY s = none → strptimeYMD s = some d →
      parseIngestDate s = .ok d) ∧
    (∀ s, strptimeMDY s = none → strptimeYMD s = none →
      parseIngestDate s = .error s) ∧
    (∀ csv db r, r ∈ csv.orders →
      strptimeMDY r.order_date = none → strptimeYMD r.order_date = none →
      ∃ e, ingest csv db = .error e) := by
  refine ⟨?_, ?_, ?_, ?_⟩
  · intro s d h
    unfold parseIngestDate
    rw [h]
  · intro s d h1 h2
    unfold parseIngestDate
    rw [h1, h2]
  · intro s h1 h2
    unfold parseIngestDate
    rw [h1, h2]
  · intro csv db r hr h1 h2
    refine ingest_error_of_bad_order_date csv db r hr ⟨r.order_date, ?_⟩
    unfold parseIngestDate
    rw [h1, h2]

/-- Concrete instances of the date-parsing fallback: a `MM/DD/YYYY` date, a
`YYYY-MM-DD` date, a string neither format accepts, and an ingestion run
that fails on it. -/
theorem C7_witness :
    parseIngestDate "3/15/2006" = .ok ⟨2006, 3, 15⟩ ∧
    parseIngestDate "2006-03-15" = .ok ⟨2006, 3, 15⟩ ∧
    parseIngestDate "garbage" = .error "garbage" ∧
    ∃ e, ingest csvBadDate emptySqliteDB = .error e := by
  refine ⟨?_, ?_, ?_, ?_⟩
  · exact C7_date_format_fallback.1 "3/15/2006" ⟨2006, 3, 15⟩ (by decide)
  · exact C7_date_format_fallback.2.1 "2006-03-15" ⟨2006, 3, 15⟩ (by decide) (by decide)
  · exact C7_date_format_fallback.2.2.1 "garbage" (by decide) (by decide)
  · exact C7_date_format_fallback.2.2.2 csvBadDate emptySqliteDB ⟨"1", "1", "garbage", "pending"⟩
      (by decide) (by decide) (by decide)

/-- Membership in the id column `1, ..., n` produced by a 1-based loop. -/
theorem mem_map_range_succ (n c : Nat) :
    c ∈ (List.range n).map (fun j => j + 1) ↔ 1 ≤ c ∧ c ≤ n := by
  simp only [List.mem_map, List.mem_range]
  constructor
  · rintro ⟨j, hj, rfl⟩; omega
  · rintro ⟨h1, h2⟩; exact ⟨c - 1, by omega, by omega⟩

/-- The generated customer ids are `1, ..., NUM_CUSTOMERS`. -/
theorem genCustomers_ids (g : Nat → Nat) :
    (genCustomers g).map (·.customer_id) = (List.range NUM_CUSTOMERS).map fun j => j + 1 := by
  simp [genCustomers, List.map_map]

/-- The generated product ids are `1, ..., NUM_PRODUCTS`. -/
theorem genProducts_ids (g : Nat → Nat) :
    (genProducts g).map (·.product_id) = (List.range NUM_PRODUCTS).map fun j => j + 1 := by
  simp [genProducts, List.map_map]

/-- The generated order ids are `1, ..., NUM_ORDERS`. -/
theorem genOrders_ids (g : Nat → Nat) :
    (genOrders g).map (·.order_id) = (List.range NUM_ORDERS).map fun j => j + 1 := by
  simp [genOrders, List.map_map]

/-- Every item the order-items loop emits carries the id of one of the
driving orders and a product id from `1, ..., NUM_PRODUCTS`. -/
theorem genItemsAux_mem (g : Nat → Nat) (os : List GOrder) (nextId : Nat)
    (it : GItem) (hit : it ∈ genItemsAux g os nextId) :
    (∃ o ∈ os, it.order_id = o.order_id) ∧
    1 ≤ it.product_id ∧ it.product_id ≤ NUM_PRODUCTS := by
  induction os generalizing nextId with
  | nil => cases hit
  | cons o os ih =>
    rw [genItemsAux, List.mem_append] at hit
    cases hit with
    | inl h =>
      obtain ⟨t, ht, rfl⟩ := List.mem_map.1 h
      refine ⟨⟨o, List.mem_cons_self o os, rfl⟩, ?_, ?_⟩
      · show 1 ≤ 1 + g (3000 + 20 * o.order_id + 3 * t + 1) % NUM_PRODUCTS
        omega
      · show 1 + g (3000 + 20 * o.order_id + 3 * t + 1) % NUM_PRODUCTS ≤ NUM_PRODUCTS
        have : g (3000 + 20 * o.order_id + 3 * t + 1) % NUM_PRODUCTS < NUM_PRODUCTS :=
          Nat.mod_lt _ (by decide)
        omega
    | inr h =>
      obtain ⟨⟨o2, ho2, hid⟩, hp⟩ := ih _ h
      exact ⟨⟨o2, List.mem_cons_of_mem o ho2, hid⟩, hp⟩

/-- Every driving order receives at least one item from the order-items
loop: `num_items = random.randint(1, 5)` is at least 1. -/
theorem genItemsAux_exists (g : Nat → Nat) (o : GOrder) :
    ∀ (os : List GOrder) (nextId : Nat), o ∈ os →
    ∃ it ∈ genItemsAux g os nextId, it.order_id = o.order_id := by
  intro os
  induction os with
  | nil => intro nextId ho; cases ho
  | cons o1 os ih =>
    intro nextId ho
    rw [genItemsAux]
    cases ho with
    | head =>
      refine ⟨⟨nextId + 0, o.order_id,
        1 + g (3000 + 20 * o.order_id + 3 * 0 + 1) % NUM_PRODUCTS,
        pyRandint 1 5 (g (3000 + 20 * o.order_id + 3 * 0 + 2)),
        pyRound2 (productPrice g (1 + g (3000 + 20 * o.order_id + 3 * 0 + 1) % NUM_PRODUCTS) *
          pyUniform (9/10) (11/10) (g (3000 + 20 * o.order_id + 3 * 0 + 3)))⟩,
        List.mem_append_left _ ?_, rfl⟩
      refine List.mem_map.2 ⟨0, List.mem_range.2 ?_, rfl⟩
      have h5 : 1 ≤ pyRandint MIN_ITEMS_PER_ORDER MAX_ITEMS_PER_ORDER (g (3000 + 20 * o.order_id)) := by
        unfold pyRandint MIN_ITEMS_PER_ORDER
        omega
      unfold NUM_PRODUCTS
      omega
    | tail _ hmem =>
      obtain ⟨it, hit, hid⟩ := ih _ hmem
      exact ⟨it, List.mem_append_right _ hit, hid⟩

/-- The `order_totals` dict after the accumulation loop, over any starting
dict: the key maps to the accumulated sum of `quantity * price` over the
matching items, on top of whatever the key held before. -/
theorem order_totals_foldl (items : List GItem)
    (acc : Nat → Option Rat) (oid : Nat) :
    (items.foldl
      (fun acc it => fun o =>
        if o = it.order_id then some ((acc it.order_id).getD 0 + (it.quantity : Rat) * it.price)
        else acc o)
      acc) oid =
    if (items.filter fun it => it.order_id == oid) = [] then acc oid
    else some ((acc oid).getD 0 +
      ((items.filter fun it => it.order_id == oid).map
        fun it => (it.quantity : Rat) * it.price).sum) := by
  induction items generalizing acc with
  | nil => simp
  | cons it its ih =>
    rw [List.foldl_cons, ih]
    by_cases h : it.order_id = oid
    · subst h
      have hcons : ((it :: its).filter fun i => i.order_id == it.order_id) =
          it :: (its.filter fun i => i.order_id == it.order_id) := by
        simp [List.filter_cons]
      rw [hcons, if_neg (List.cons_ne_nil _ _)]
      rw [show (if it.order_id = it.order_id
          then some ((acc it.order_id).getD 0 + (it.quantity : Rat) * it.price)
          else acc it.order_id) =
          some ((acc it.order_id).getD 0 + (it.quantity : Rat) * it.price) from if_pos rfl]
      split_ifs with h2
      · rw [h2]
        simp
      · simp [add_assoc]
    · have hcons : ((it :: its).filter fun i => i.order_id == oid) =
          its.filter fun i => i.order_id == oid := by
        simp [List.filter_cons, h]
      have hstep : (if oid = it.order_id
          then some ((acc it.order_id).getD 0 + (it.quantity : Rat) * it.price)
          else acc oid) = acc oid := if_neg fun hh => h hh.symm
      rw [hcons, hstep]

/-- The dict `order_totals` holds exactly the orders with at least one item, mapped
to their item totals. -/
theorem order_totals_apply (items : List GItem) (oid : Nat) :
    order_totals items oid =
    if (items.filter fun it => it.order_id == oid) = [] then none
    else some (((items.filter fun it => it.order_id == oid).map
      fun it => (it.quantity : Rat) * it.price).sum) := by
  rw [order_totals, order_totals_foldl]
  by_cases h : (items.filter fun it => it.order_id == oid) = [] <;> simp [h]

/-- The payments loop emits the driving orders' ids, in order. -/
theorem genPaymentsAux_ids (g : Nat → Nat) (items : List GItem) :
    ∀ (os : List GOrder) (pid : Nat),
    (genPaymentsAux g items os pid).map (·.order_id) = os.map (·.order_id) := by
  intro os
  induction os with
  | nil => intro pid; rfl
  | cons o os ih => intro pid; simp [genPaymentsAux, ih]

/-- Pairing each driving order with the payment generated for it: the
payment carries the order's id, its amount is the rounded item total when
the order has items, and its date lies between the order date and seven
days later, clamped to the end of the generation range. -/
theorem genPaymentsAux_zip (g : Nat → Nat) (items : List GItem) :
    ∀ (os : List GOrder) (pid : Nat),
    (∀ o ∈ os, o.order_date ≤ genEndDay) →
    (∀ o ∈ os, (items.filter fun it => it.order_id == o.order_id) ≠ []) →
    (os.zip (genPaymentsAux g items os pid)).Forall fun op =>
      op.2.order_id = op.1.order_id ∧
      op.2.amount = pyRound2 (((items.filter fun it => it.order_id == op.1.order_id).map
        fun it => (it.quantity : Rat) * it.price).sum) ∧
      op.1.order_date ≤ op.2.payment_date ∧
      op.2.payment_date ≤ op.1.order_date + 7 ∧
      op.2.payment_date ≤ genEndDay := by
  intro os
  induction os with
  | nil => intro pid _ _; constructor
  | cons o os ih =>
    intro pid hdate hitems
    rw [genPaymentsAux, List.zip_cons_cons, List.forall_cons]
    refine ⟨⟨rfl, ?_, ?_, ?_, ?_⟩,
      ih (pid + 1) (fun o2 h2 => hdate o2 (List.mem_cons_of_mem o h2))
        (fun o2 h2 => hitems o2 (List.mem_cons_of_mem o h2))⟩
    · show pyRound2 _ = pyRound2 _
      rw [order_totals_apply, if_neg (hitems o (List.mem_cons_self o os))]
    · have h1 := hdate o (List.mem_cons_self o os)
      show o.order_date ≤ if genEndDay < o.order_date + _ then genEndDay else _
      split <;> omega
    · have hr : pyRandint 0 7 (g (8000 + 3 * o.order_id + 1)) ≤ 7 := by
        unfold pyRandint; omega
      show (if genEndDay < o.order_date + pyRandint 0 7 (g (8000 + 3 * o.order_id + 1))
        then genEndDay else o.order_date + pyRandint 0 7 (g (8000 + 3 * o.order_id + 1)))
        ≤ o.order_date + 7
      split <;> omega
    · show (if genEndDay < o.order_date + _ then genEndDay else _) ≤ genEndDay
      split <;> omega

/-- C6: the generated data is referentially consistent — every generated
order's `customer_id` is the id of a generated customer (between 1 and
`NUM_CUSTOMERS = 100`), every generated order item's `order_id` and
`product_id` are ids of a generated order and product, and every generated
payment's `order_id` is the id of a generated order. -/
theorem C6_referential_integrity (g : Nat → Nat) :
    ((genOrders g).Forall fun o =>
      o.customer_id ∈ (genCustomers g).map (·.customer_id) ∧
      1 ≤ o.customer_id ∧ o.customer_id ≤ NUM_CUSTOMERS) ∧
    ((genOrderItems g).Forall fun it =>
      it.order_id ∈ (genOrders g).map (·.order_id) ∧
      it.product_id ∈ (genProducts g).map (·.product_id)) ∧
    ((genPayments g).Forall fun p =>
      p.order_id ∈ (genOrders g).map (·.order_id)) := by
  refine ⟨List.forall_iff_forall_mem.2 ?_, List.forall_iff_forall_mem.2 ?_,
    List.forall_iff_forall_mem.2 ?_⟩
  · intro o ho
    obtain ⟨j, _, rfl⟩ := List.mem_map.1 ho
    have hb : 1 ≤ pyRandint 1 NUM_CUSTOMERS (g (2000 + 3 * (j + 1))) ∧
        pyRandint 1 NUM_CUSTOMERS (g (2000 + 3 * (j + 1))) ≤ NUM_CUSTOMERS := by
      have := Nat.mod_lt (g (2000 + 3 * (j + 1))) (y := NUM_CUSTOMERS) (by decide)
      simp [pyRandint, NUM_CUSTOMERS] at this ⊢
      omega
    exact ⟨(genCustomers_ids g).symm ▸ (mem_map_range_succ _ _).2 hb, hb⟩
  · intro it hit
    obtain ⟨⟨o, ho, hid⟩, hp1, hp2⟩ := genItemsAux_mem g (genOrders g) 1 it hit
    refine ⟨hid ▸ List.mem_map_of_mem (·.order_id) ho, ?_⟩
    rw [genProducts_ids]
    exact (mem_map_range_succ _ _).2 ⟨hp1, hp2⟩
  · intro p hp
    have hids := genPaymentsAux_ids g (genOrderItems g) (genOrders g) 1
    have : p.order_id ∈ (genPayments g).map (·.order_id) :=
      List.mem_map_of_mem (·.order_id) hp
    rw [genPayments, hids] at this
    exact this

/-- C9: every generated order has exactly one generated payment (the
payment ids pair off with the distinct order ids one to one); that
payment's amount is the 2-decimal rounding of the sum of
`quantity * price` over the order's items; and the payment date is on or
after the order date, at most 7 days later, and never past the end of the
generation range (day 729 = 2007-12-31). -/
theorem C9_payment_invariants (g : Nat → Nat) :
    (genPayments g).length = (genOrders g).length ∧
    (genPayments g).map (·.order_id) = (genOrders g).map (·.order_id) ∧
    ((genOrders g).map (·.order_id)).Nodup ∧
    ((genOrders g).zip (genPayments g)).Forall fun op =>
      op.2.order_id = op.1.order_id ∧
      op.2.amount = pyRound2 ((((genOrderItems g).filter
        fun it => it.order_id == op.1.order_id).map
        fun it => (it.quantity : Rat) * it.price).sum) ∧
      op.1.order_date ≤ op.2.payment_date ∧
      op.2.payment_date ≤ op.1.order_date + 7 ∧
      op.2.payment_date ≤ genEndDay := by
  have hids := genPaymentsAux_ids g (genOrderItems g) (genOrders g) 1
  refine ⟨?_, hids, ?_, ?_⟩
  · have := congrArg List.length hids
    simpa using this
  · rw [genOrders_ids]
    exact ((List.nodup_range NUM_ORDERS).map fun a b h => by omega)
  · refine genPaymentsAux_zip g (genOrderItems g) (genOrders g) 1 ?_ ?_
    · intro o ho
      obtain ⟨j, _, rfl⟩ := List.mem_map.1 ho
      have := Nat.mod_lt (g (2000 + 3 * (j + 1) + 1)) (y := 730) (by decide)
      simp [fakeDateBetween, genStartDay, genEndDay]
      omega
    · intro o ho
      obtain ⟨it, hit, hid⟩ := genItemsAux_exists g o (genOrders g) 1 ho
      exact List.ne_nil_of_mem (List.mem_filter.2 ⟨hit, beq_iff_eq.2 hid⟩)

/-- Membership in the order/order-items inner join. -/
theorem mem_joinOI (db : DB) (o : Order) (i : OrderItem) :
    (o, i) ∈ joinOI db ↔
    o ∈ db.orders ∧ i ∈ db.order_items ∧ i.order_id = o.order_id := by
  simp only [joinOI, List.mem_flatMap, List.mem_map, List.mem_filter]
  constructor
  · rintro ⟨o2, ho2, i2, ⟨hi2, hbeq⟩, heq⟩
    obtain ⟨rfl, rfl⟩ := Prod.mk.injEq .. ▸ heq
    exact ⟨ho2, hi2, beq_iff_eq.1 hbeq⟩
  · rintro ⟨ho, hi, hid⟩
    exact ⟨o, ho, i, ⟨hi, beq_iff_eq.2 hid⟩, rfl⟩

/-- Membership in the month group keys: the months of orders having at
least one order item. -/
theorem mem_monthKeys (db : DB) (k : Nat × Nat) :
    k ∈ monthKeys db ↔
    ∃ o ∈ db.orders, (∃ i ∈ db.order_items, i.order_id = o.order_id) ∧
      ym o.order_date = k := by
  rw [monthKeys, List.mem_insertionSort, List.mem_dedup, List.mem_map]
  constructor
  · rintro ⟨⟨o, i⟩, hr, hk⟩
    obtain ⟨ho, hi, hid⟩ := (mem_joinOI db o i).1 hr
    exact ⟨o, ho, ⟨i, hi, hid⟩, hk⟩
  · rintro ⟨o, ho, ⟨i, hi, hid⟩, hk⟩
    exact ⟨(o, i), (mem_joinOI db o i).2 ⟨ho, hi, hid⟩, hk⟩

/-- The month keys are sorted by `(year, month)`. -/
theorem monthKeys_sorted (db : DB) : (monthKeys db).Sorted keyLe :=
  List.sorted_insertionSort keyLe _

/-- The month keys are distinct. -/
theorem monthKeys_nodup (db : DB) : (monthKeys db).Nodup :=
  ((List.perm_insertionSort keyLe _).nodup_iff).2 (List.nodup_dedup _)

/-- When every stored order date has a month of at least 1 (as every real
date does), so does every month key. -/
theorem monthKeys_month_pos (db : DB)
    (hm : ∀ o ∈ db.orders, 1 ≤ o.order_date.month) (k : Nat × Nat)
    (hk : k ∈ monthKeys db) : 1 ≤ k.2 := by
  obtain ⟨o, ho, _, hym⟩ := (mem_monthKeys db k).1 hk
  have := hm o ho
  rw [← hym]
  exact this

/-- The trend `CASE` of the `LAG` query has a fourth, unreachable `N/A`
branch; on a never-`NULL` revenue change it collapses to the three-branch
`CASE` of the self-join query. -/
theorem trend4_eq_trend3 (c : Rat) :
    (if 0 < c then "↑ Growing" else if c < 0 then "↓ Declining"
     else if c = 0 then "→ Stable" else "N/A") =
    (if 0 < c then "↑ Growing" else if c < 0 then "↓ Declining"
     else "→ Stable") := by
  by_cases h1 : 0 < c
  · simp [h1]
  · by_cases h2 : c < 0
    · simp [h2]
    · have : c = 0 := le_antisymm (not_lt.1 h1) (not_lt.1 h2)
      simp [h1, h2, this]

/-- A month whose previous calendar month is absent gets the same trend row
from both query variants. -/
theorem mkSelfRow_of_none (db : DB) (k : Nat × Nat)
    (hmem : (k.1, k.2 - 1) ∉ monthKeys db) :
    mkSelfRow db k = mkLagRow db none k := by
  unfold mkSelfRow mkLagRow
  rw [if_neg hmem]
  simp only [trend4_eq_trend3, Option.map_none', Option.map_some']

/-- A month whose previous calendar month is present and equals the given
previous-row key gets the same trend row from both query variants. -/
theorem mkSelfRow_of_some (db : DB) (k p : Nat × Nat)
    (hp : (k.1, k.2 - 1) = p) (hmem : (k.1, k.2 - 1) ∈ monthKeys db) :
    mkSelfRow db k = mkLagRow db (some p) k := by
  subst hp
  unfold mkSelfRow mkLagRow
  rw [if_pos hmem]
  simp only [trend4_eq_trend3, Option.map_none', Option.map_some']

/-- The `LAG` query yields one row per month group. -/
theorem lagQuery_length (db : DB) :
    (lagQuery db).length = (monthKeys db).length := by
  simp [lagQuery]

/-- The self-join query yields one row per month group. -/
theorem selfJoinQuery_length (db : DB) :
    (selfJoinQuery db).length = (monthKeys db).length := by
  simp [selfJoinQuery]

set_option maxRecDepth 100000 in
/-- C1 is a code bug: on the database with monthly revenues 100 (2006-01)
and 130 (2006-02), the average month-over-month delta is 30 and the last
month's revenue is 130, so the claimed forecasts are 160/190/220; but the
Python forecast of `run_sales_forecast_compatible.py` (and the graphs
variant) averages every nonzero `revenue_change` — including the first
month's change of 100, which is its whole revenue — and prints 195/260/325.
(The two window-function scripts never produce a forecast at all: their
`forecast_query` places `LAG` inside `AVG`, which SQLite rejects with
"misuse of window function LAG()", and the query as written uses
`MAX(total_revenue)`, not the last month's revenue.) -/
theorem C1_forecast_divergence :
    compatForecast exDB1 1 = 195 ∧ compatForecast exDB1 2 = 260 ∧
    compatForecast exDB1 3 = 325 ∧
    claimForecast exDB1 1 = 160 ∧ claimForecast exDB1 2 = 190 ∧
    claimForecast exDB1 3 = 220 ∧
    compatForecast exDB1 1 ≠ claimForecast exDB1 1 := by
  with_unfolding_all decide

set_option maxRecDepth 100000 in
/-- C2 as stated is false: on the database with revenue in 2006-12 and
2007-01, the `LAG` query reports December's revenue 100 as January's
previous-month revenue, while the self-join query reports 0 — its December
branch compares the TEXT year with an integer and never matches. -/
theorem C2_counterexample : lagQuery exDB2 ≠ selfJoinQuery exDB2 := by
  intro h
  have h2 := congrArg (fun l => (l.getD 1 dummyRow).previous_month_revenue) h
  have hl : ((lagQuery exDB2).getD 1 dummyRow).previous_month_revenue = 100 := by
    with_unfolding_all decide
  have hs : ((selfJoinQuery exDB2).getD 1 dummyRow).previous_month_revenue = 0 := by
    with_unfolding_all decide
  simp only [hl, hs] at h2
  exact absurd h2 (by norm_num)

/-- C2 amended: the `LAG`-based and self-join monthly trend queries compute
the same rows whenever the months present are calendar-consecutive within a
single year (no month gaps and no December-to-January step); stored dates
have months of at least 1. -/
theorem C2_trend_queries_agree (db : DB)
    (hm : ∀ o ∈ db.orders, 1 ≤ o.order_date.month)
    (hchain : List.Chain' (fun a b : Nat × Nat => b.1 = a.1 ∧ b.2 = a.2 + 1)
      (monthKeys db)) :
    lagQuery db = selfJoinQuery db := by
  have hlen : (lagQuery db).length = (selfJoinQuery db).length := by
    rw [lagQuery_length, selfJoinQuery_length]
  apply List.ext_getElem hlen
  intro i h1 h2
  have hks : i < (monthKeys db).length := by
    rw [lagQuery_length] at h1
    exact h1
  simp only [lagQuery, selfJoinQuery, List.getElem_map, List.getElem_zip]
  cases i with
  | zero =>
    simp only [List.getElem_cons_zero]
    refine (mkSelfRow_of_none db _ ?_).symm
    intro hmemc
    have hpos : 1 ≤ ((monthKeys db)[0]).2 :=
      monthKeys_month_pos db hm _ (List.getElem_mem hks)
    obtain ⟨⟨j, hj⟩, hget⟩ := List.mem_iff_get.1 hmemc
    rcases Nat.eq_zero_or_pos j with hj0 | hjpos
    · subst hj0
      have h2nd := congrArg Prod.snd hget
      simp only [List.get_eq_getElem] at h2nd
      omega
    · have hrel := (monthKeys_sorted db).rel_get_of_lt
        (a := ⟨0, hks⟩) (b := ⟨j, hj⟩) (by exact hjpos)
      rw [hget] at hrel
      unfold keyLe at hrel
      simp only [List.get_eq_getElem] at hrel
      omega
  | succ j =>
    have hj : j < (monthKeys db).length := by omega
    simp only [List.getElem_cons_succ, List.getElem_map]
    refine (mkSelfRow_of_some db _ ((monthKeys db)[j]) ?_ ?_).symm
    · have hrel := List.chain'_iff_get.1 hchain j (by omega)
      simp only [List.get_eq_getElem] at hrel
      refine Prod.ext_iff.2 ⟨hrel.1, ?_⟩
      simp only []
      omega
    · have hrel := List.chain'_iff_get.1 hchain j (by omega)
      simp only [List.get_eq_getElem] at hrel
      have : ((((monthKeys db)[j + 1]).1, ((monthKeys db)[j + 1]).2 - 1))
          = (monthKeys db)[j] := Prod.ext_iff.2 ⟨hrel.1, by omega⟩
      rw [this]
      exact List.getElem_mem hj

/-- Sum over a filtered list as a sum of guarded terms. -/
theorem sum_map_filter_eq_sum_ite {α : Type} (l : List α) (q : α → Bool) (g : α → Rat) :
    ((l.filter q).map g).sum = (l.map fun x => if q x then g x else 0).sum := by
  induction l with
  | nil => rfl
  | cons a l ih =>
    by_cases h : q a
    · rw [List.filter_cons_of_pos h, List.map_cons, List.sum_cons, ih,
        List.map_cons, List.sum_cons, if_pos h]
    · rw [List.filter_cons_of_neg h, ih, List.map_cons, List.sum_cons, if_neg h,
        zero_add]

/-- A pointwise sum of two functions splits. -/
theorem sum_map_add_dist {α : Type} (l : List α) (f h : α → Rat) :
    (l.map fun x => f x + h x).sum = (l.map f).sum + (l.map h).sum := by
  induction l with
  | nil => simp
  | cons a l ih =>
    simp only [List.map_cons, List.sum_cons, ih]
    ring

/-- Summing a function over a filtered flat map, block by block. -/
theorem sum_map_filter_flatMap {α β : Type} (l : List α) (f : α → List β)
    (P : β → Bool) (g : β → Rat) :
    (((l.flatMap f).filter P).map g).sum
      = (l.map fun x => (((f x).filter P).map g).sum).sum := by
  induction l with
  | nil => rfl
  | cons a l ih =>
    rw [List.flatMap_cons, List.filter_append, List.map_append, List.sum_append,
      ih, List.map_cons, List.sum_cons]

/-- The monthly revenue grouped per order: the revenue of a month group is
the sum, over the orders of that month, of their item totals. -/
theorem total_revenue_by_orders (db : DB) (k : Nat × Nat) :
    total_revenue db k =
      ((db.orders.filter fun o => ym o.order_date == k).map fun o =>
        ((db.order_items.filter fun i => i.order_id == o.order_id).map fun i =>
          (i.quantity : Rat) * i.price).sum).sum := by
  rw [total_revenue, joinOI, sum_map_filter_flatMap, sum_map_filter_eq_sum_ite]
  apply congrArg List.sum
  apply List.map_congr_left
  intro o _
  rw [List.filter_map]
  by_cases hc : ym o.order_date == k
  · rw [if_pos hc]
    have h1 : ((fun r : Order × OrderItem => ym r.1.order_date == k) ∘
        fun i => (o, i)) = fun _ => true := by
      funext i
      simpa using hc
    rw [h1, List.filter_true, List.map_map]
    rfl
  · rw [if_neg hc]
    have h1 : ((fun r : Order × OrderItem => ym r.1.order_date == k) ∘
        fun i => (o, i)) = fun _ => false := by
      funext i
      simpa using hc
    rw [h1, List.filter_false, List.map_nil, List.map_nil, List.sum_nil]

/-- Interchanging a double sum over two lists. -/
theorem sum_sum_swap {α β : Type} (A : List α) (B : List β) (p : α → β → Bool)
    (g : β → Rat) :
    (A.map fun a => ((B.filter fun b => p a b).map g).sum).sum
      = (B.map fun b => ((A.filter fun a => p a b).map fun _ => g b).sum).sum := by
  induction A with
  | nil => simp
  | cons a A ih =>
    rw [List.map_cons, List.sum_cons, ih]
    have hb : ∀ b ∈ B, (((a :: A).filter fun x => p x b).map fun _ => g b).sum
        = (if p a b then g b else 0) + ((A.filter fun x => p x b).map fun _ => g b).sum := by
      intro b _
      by_cases h : p a b
      · simp [List.filter_cons, h]
      · simp [List.filter_cons, h]
    rw [List.map_congr_left hb, sum_map_add_dist, sum_map_filter_eq_sum_ite]

/-- With distinct order ids, filtering the orders of a month down to a given
order id leaves exactly the row `find?` locates, when its month matches. -/
theorem filter_parent (oid : Nat) (Q : Order → Bool) :
    ∀ (orders : List Order), (orders.map (·.order_id)).Nodup →
    ((orders.filter Q).filter fun o => oid == o.order_id)
      = (match orders.find? fun o => o.order_id == oid with
         | some o => if Q o then [o] else []
         | none => []) := by
  intro orders
  induction orders with
  | nil => intro h; rfl
  | cons o os ih =>
    intro h
    rw [List.map_cons, List.nodup_cons] at h
    by_cases ho : o.order_id = oid
    · have hnone : ((os.filter Q).filter fun o2 => oid == o2.order_id) = [] := by
        apply List.filter_eq_nil_iff.2
        intro o2 ho2 hbeq
        apply h.1
        have h2 : o2.order_id = o.order_id := by
          have h3 := beq_iff_eq.1 hbeq
          omega
        rw [← h2]
        exact List.mem_map_of_mem (·.order_id) (List.mem_of_mem_filter ho2)
      rw [@List.find?_cons_of_pos _ (fun o2 => o2.order_id == oid) o os
        (by simp only [beq_iff_eq]; omega)]
      by_cases hQ : Q o
      · rw [@List.filter_cons_of_pos _ Q o os hQ,
          @List.filter_cons_of_pos _ (fun o2 => oid == o2.order_id) o (os.filter Q)
            (by simp only [beq_iff_eq]; omega),
          hnone]
        simp [hQ]
      · rw [@List.filter_cons_of_neg _ Q o os hQ, hnone]
        simp [hQ]
    · rw [@List.find?_cons_of_neg _ (fun o2 => o2.order_id == oid) o os
        (by simp only [beq_iff_eq]; omega)]
      by_cases hQ : Q o
      · rw [@List.filter_cons_of_pos _ Q o os hQ,
          @List.filter_cons_of_neg _ (fun o2 => oid == o2.order_id) o (os.filter Q)
            (by simp only [beq_iff_eq]; omega),
          ih h.2]
      · rw [@List.filter_cons_of_neg _ Q o os hQ, ih h.2]

/-- The per-month revenue in item-centric form: with distinct order ids it
is the sum of `quantity * price` over exactly the order items whose parent
order (the unique order with the item's `order_id`) falls in the month. -/
theorem total_revenue_by_items (db : DB) (h : nodupOrderIds db) (k : Nat × Nat) :
    total_revenue db k =
      ((db.order_items.filter fun i =>
          match db.orders.find? fun o => o.order_id == i.order_id with
          | some o => ym o.order_date == k
          | none => false).map fun i => (i.quantity : Rat) * i.price).sum := by
  rw [total_revenue_by_orders, sum_sum_swap, sum_map_filter_eq_sum_ite]
  apply congrArg List.sum
  apply List.map_congr_left
  intro i _
  rw [filter_parent i.order_id _ db.orders h]
  cases hf : db.orders.find? fun o => o.order_id == i.order_id with
  | none => simp
  | some o =>
    by_cases hQ : ym o.order_date == k
    · simp [hQ]
    · simp [hQ]

/-- The join-row order ids of a month, grouped per order of the month. -/
theorem month_ids_by_orders (db : DB) (k : Nat × Nat) :
    (((joinOI db).filter fun r => ym r.1.order_date == k).map fun r => r.1.order_id)
      = (db.orders.filter fun o => ym o.order_date == k).flatMap fun o =>
          (db.order_items.filter fun i => i.order_id == o.order_id).map
            fun _ => o.order_id := by
  rw [joinOI]
  induction db.orders with
  | nil => rfl
  | cons o os ih =>
    rw [List.flatMap_cons, List.filter_append, List.map_append, ih]
    by_cases hc : ym o.order_date == k
    · rw [@List.filter_cons_of_pos _ (fun o2 => ym o2.order_date == k) o os hc,
        List.flatMap_cons]
      apply congrArg (· ++ _)
      rw [List.filter_map]
      have h1 : ((fun r : Order × OrderItem => ym r.1.order_date == k) ∘
          fun i => (o, i)) = fun _ => true := by
        funext i
        simpa using hc
      rw [h1, List.filter_true, List.map_map]
      rfl
    · rw [@List.filter_cons_of_neg _ (fun o2 => ym o2.order_date == k) o os hc]
      rw [List.filter_map]
      have h1 : ((fun r : Order × OrderItem => ym r.1.order_date == k) ∘
          fun i => (o, i)) = fun _ => false := by
        funext i
        simpa using hc
      rw [h1, List.filter_false, List.map_nil, List.map_nil, List.nil_append]

/-- A constant-valued map over a non-empty list collects to a singleton. -/
theorem toFinset_const_map {α : Type} (v : Nat) :
    ∀ (l : List α), l ≠ [] → (l.map fun _ => v).toFinset = {v} := by
  intro l
  induction l with
  | nil => intro hne; cases hne rfl
  | cons a l ih =>
    intro _
    rw [List.map_cons, List.toFinset_cons]
    by_cases h : l = []
    · subst h
      simp
    · rw [ih h]
      simp

/-- Counting the distinct order ids of per-order constant blocks: with
distinct order ids this is the number of orders whose block is non-empty. -/
theorem dedup_length_blocks (items : List OrderItem) :
    ∀ (os : List Order), (os.map (·.order_id)).Nodup →
    ((os.flatMap fun o => (items.filter fun i => i.order_id == o.order_id).map
        fun _ => o.order_id).dedup).length
      = ((os.filter fun o => items.any fun i => i.order_id == o.order_id).length) := by
  intro os
  induction os with
  | nil => intro h; rfl
  | cons o os ih =>
    intro h
    rw [List.map_cons, List.nodup_cons] at h
    rw [List.flatMap_cons, ← List.card_toFinset, List.toFinset_append]
    by_cases hne : (items.filter fun i => i.order_id == o.order_id) = []
    · have hany : (items.any fun i => i.order_id == o.order_id) = false := by
        rw [List.any_eq_false]
        intro i hi
        exact (List.filter_eq_nil_iff.1 hne) i hi
      rw [hne]
      simp only [List.map_nil, List.toFinset_nil, Finset.empty_union]
      rw [List.card_toFinset, ih h.2,
        @List.filter_cons_of_neg _ (fun o2 => items.any fun i => i.order_id == o2.order_id)
          o os (by simp [hany])]
    · have hany : (items.any fun i => i.order_id == o.order_id) = true := by
        obtain ⟨i, hi⟩ := List.exists_mem_of_ne_nil _ hne
        have h2 := List.mem_filter.1 hi
        exact List.any_eq_true.2 ⟨i, h2.1, h2.2⟩
      rw [toFinset_const_map _ _ hne, ← Finset.insert_eq]
      have hnotmem : o.order_id ∉ (os.flatMap fun o2 =>
          (items.filter fun i => i.order_id == o2.order_id).map
            fun _ => o2.order_id).toFinset := by
        rw [List.mem_toFinset]
        intro hmem
        obtain ⟨o2, ho2, hmem2⟩ := List.mem_flatMap.1 hmem
        obtain ⟨i2, _, hval⟩ := List.mem_map.1 hmem2
        exact h.1 (hval ▸ List.mem_map_of_mem (·.order_id) ho2)
      rw [Finset.card_insert_of_not_mem hnotmem, List.card_toFinset, ih h.2,
        @List.filter_cons_of_pos _ (fun o2 => items.any fun i => i.order_id == o2.order_id)
          o os hany, List.length_cons]

/-- C3: for every database state with distinct order ids, the per-month
revenue of the `monthly_revenue` CTE equals the sum of `quantity * price`
over exactly the order-items rows whose parent order's date falls in that
month; a month appears among the group keys exactly when some order of that
month has at least one item (orders without items contribute no month); and
the order count of a month counts the distinct orders of that month having
items. -/
theorem C3_monthly_revenue_correct (db : DB) (h : nodupOrderIds db) (y m : Nat) :
    ((y, m) ∈ monthKeys db ↔
      ∃ o ∈ db.orders, (∃ i ∈ db.order_items, i.order_id = o.order_id) ∧
        o.order_date.year = y ∧ o.order_date.month = m) ∧
    total_revenue db (y, m) =
      ((db.order_items.filter fun i =>
          match db.orders.find? fun o => o.order_id == i.order_id with
          | some o => ym o.order_date == (y, m)
          | none => false).map fun i => (i.quantity : Rat) * i.price).sum ∧
    order_count db (y, m) =
      ((db.orders.filter fun o => ym o.order_date == (y, m)).filter fun o =>
        db.order_items.any fun i => i.order_id == o.order_id).length := by
  refine ⟨?_, total_revenue_by_items db h (y, m), ?_⟩
  · rw [mem_monthKeys]
    constructor
    · rintro ⟨o, ho, hi, hym⟩
      exact ⟨o, ho, hi, congrArg Prod.fst hym, congrArg Prod.snd hym⟩
    · rintro ⟨o, ho, hi, hy, hm2⟩
      exact ⟨o, ho, hi, Prod.ext_iff.2 ⟨hy, hm2⟩⟩
  · have hsub : ((db.orders.filter fun o => ym o.order_date == (y, m)).map
        (·.order_id)).Sublist (db.orders.map (·.order_id)) :=
      (List.filter_sublist db.orders).map (·.order_id)
    rw [order_count, month_ids_by_orders, dedup_length_blocks db.order_items _
      (List.Nodup.sublist hsub h)]

/-- Concrete instance of C3 on the two-month database, month 2006-01. -/
theorem C3_witness :
    total_revenue exDB1 (2006, 1) =
      ((exDB1.order_items.filter fun i =>
          match exDB1.orders.find? fun o => o.order_id == i.order_id with
          | some o => ym o.order_date == (2006, 1)
          | none => false).map fun i => (i.quantity : Rat) * i.price).sum ∧
    order_count exDB1 (2006, 1) =
      ((exDB1.orders.filter fun o => ym o.order_date == (2006, 1)).filter fun o =>
        exDB1.order_items.any fun i => i.order_id == o.order_id).length :=
  ⟨(C3_monthly_revenue_correct exDB1 (by unfold nodupOrderIds; decide) 2006 1).2.1,
   (C3_monthly_revenue_correct exDB1 (by unfold nodupOrderIds; decide) 2006 1).2.2⟩

/-- Every reconciliation row generated for an order carries that order's id. -/
theorem reconRows_order_id (db : DB) (o : Order) :
    ∀ r ∈ reconRowsForOrder db o, r.order_id = o.order_id := by
  intro r hr
  rw [reconRowsForOrder] at hr
  rcases hps : paysOf db o with _ | ⟨p, ps⟩
  · rw [hps] at hr
    simp only [List.mem_singleton] at hr
    rw [hr]
  · rw [hps] at hr
    obtain ⟨a, _, hval⟩ := List.mem_map.1 hr
    rw [← hval]

/-- With distinct order ids, filtering the orders down to one id leaves
exactly that order. -/
theorem filter_id_singleton (o : Order) :
    ∀ (orders : List Order), (orders.map (·.order_id)).Nodup → o ∈ orders →
    orders.filter (fun x => x.order_id == o.order_id) = [o] := by
  intro orders
  induction orders with
  | nil => intro _ ho; cases ho
  | cons o1 os ih =>
    intro h ho
    rw [List.map_cons, List.nodup_cons] at h
    by_cases h1 : o1.order_id = o.order_id
    · have ho1 : o1 = o := by
        cases ho with
        | head => rfl
        | tail _ hmem =>
          exact absurd (h1 ▸ List.mem_map_of_mem (·.order_id) hmem) h.1
      have hnone : os.filter (fun x => x.order_id == o.order_id) = [] := by
        apply List.filter_eq_nil_iff.2
        intro x hx hbeq
        exact h.1 (h1 ▸ (beq_iff_eq.1 hbeq) ▸ List.mem_map_of_mem (·.order_id) hx)
      rw [@List.filter_cons_of_pos _ (fun x => x.order_id == o.order_id) o1 os
        (by simp [h1]), hnone, ho1]
    · have ho2 : o ∈ os := by
        cases ho with
        | head => exact absurd rfl h1
        | tail _ hmem => exact hmem
      rw [@List.filter_cons_of_neg _ (fun x => x.order_id == o.order_id) o1 os
        (by simp [h1]), ih h.2 ho2]

/-- Congruence of flat maps under a pointwise equality on the list. -/
theorem flatMap_congr_mem {α β : Type} (l : List α) (f g : α → List β)
    (h : ∀ x ∈ l, f x = g x) : l.flatMap f = l.flatMap g := by
  induction l with
  | nil => rfl
  | cons a l ih =>
    rw [List.flatMap_cons, List.flatMap_cons, h a (List.mem_cons_self a l),
      ih fun x hx => h x (List.mem_cons_of_mem a hx)]

/-- A guarded flat map is the flat map of the filtered list. -/
theorem flatMap_if_filter {α β : Type} (l : List α) (f : α → List β) (p : α → Bool) :
    (l.flatMap fun x => if p x then f x else []) = (l.filter p).flatMap f := by
  induction l with
  | nil => rfl
  | cons a l ih =>
    rw [List.flatMap_cons]
    by_cases h : p a
    · rw [if_pos h, @List.filter_cons_of_pos _ p a l h, List.flatMap_cons, ih]
    · rw [if_neg h, @List.filter_cons_of_neg _ p a l h, List.nil_append, ih]

/-- With distinct order ids, the reconciliation result rows carrying a given
order's id are exactly the rows generated for that order. -/
theorem statusQuery_rowsFor (db : DB) (h : nodupOrderIds db) (o : Order)
    (ho : o ∈ db.orders) :
    (statusQuery db).filter (fun r => r.order_id == o.order_id) =
      reconRowsForOrder db o := by
  rw [statusQuery, List.filter_flatMap]
  have hstep : ∀ x ∈ List.insertionSort orderIdLe db.orders,
      (reconRowsForOrder db x).filter (fun r => r.order_id == o.order_id) =
      if x.order_id == o.order_id then reconRowsForOrder db x else [] := by
    intro x _
    by_cases hx : x.order_id = o.order_id
    · rw [if_pos (beq_iff_eq.2 hx)]
      apply List.filter_eq_self.2
      intro r hr
      rw [beq_iff_eq, reconRows_order_id db x r hr, hx]
    · rw [if_neg (by simpa using hx)]
      apply List.filter_eq_nil_iff.2
      intro r hr hbeq
      exact hx ((reconRows_order_id db x r hr) ▸ beq_iff_eq.1 hbeq)
  rw [flatMap_congr_mem _ _ _ hstep, flatMap_if_filter]
  have hsing : (List.insertionSort orderIdLe db.orders).filter
      (fun x => x.order_id == o.order_id) = [o] := by
    have hperm := (List.perm_insertionSort orderIdLe db.orders).filter
      (fun x => x.order_id == o.order_id)
    rw [filter_id_singleton o db.orders h ho] at hperm
    exact List.perm_singleton.1 hperm
  rw [hsing]
  simp

set_option maxRecDepth 100000 in
/-- C8 as stated is false: on the database whose single order has item total
10 and two payments of 10 each, the grouped join repeats the item rows once
per payment, so the computed order total is 20 and the single result row is
flagged MISMATCH, although the payment amount differs from the true order
total by less than 0.01. -/
theorem C8_counterexample :
    (statusQuery exDB8).map (fun r => (r.order_id, r.order_total, r.status_check)) =
      [(1, 20, "MISMATCH")] ∧
    |itemTotal exDB8 ⟨1, 1, ⟨2006, 1, 10⟩, "delivered"⟩ - (10 : Rat)| < 1 / 100 := by
  constructor
  · with_unfolding_all decide
  · with_unfolding_all decide

/-- C8 amended: for every order with at most one payment row, the
reconciliation query emits exactly one row for it, flagged `MATCH` exactly
when it has a payment whose amount is within 0.01 of the order's item
total, and `MISMATCH` otherwise — in particular `MISMATCH` with a `NULL`
difference when it has no payment. (With several payments the query emits
one row per distinct payment amount, with the item rows double-counted.)
Every order with no payment row is listed under orders without payments,
and every payment whose order id matches no order is listed as an orphan
payment. -/
theorem C8_reconciliation (db : DB) (h : nodupOrderIds db) :
    (∀ o ∈ db.orders, (paysOf db o).length ≤ 1 →
      (statusQuery db).filter (fun r => r.order_id == o.order_id) =
        match paysOf db o with
        | [] => [⟨o.order_id, itemTotal db o, none, "MISMATCH", none⟩]
        | p :: _ => [⟨o.order_id, itemTotal db o, some p.amount,
            if |itemTotal db o - p.amount| < 1 / 100 then "MATCH" else "MISMATCH",
            some |itemTotal db o - p.amount|⟩]) ∧
    (∀ o ∈ db.orders, paysOf db o = [] →
      (o.order_id, itemTotal db o) ∈ ordersWithoutPayments db) ∧
    (∀ p ∈ db.payments, (∀ o ∈ db.orders, o.order_id ≠ p.order_id) →
      (p.payment_id, p.order_id, p.amount) ∈ orphanPayments db) := by
  refine ⟨?_, ?_, ?_⟩
  · intro o ho hlen
    rw [statusQuery_rowsFor db h o ho, reconRowsForOrder]
    rcases hps : paysOf db o with _ | ⟨p, ps⟩
    · rfl
    · rcases ps with _ | ⟨p2, ps2⟩
      · simp [List.filter_cons]
      · rw [hps] at hlen
        simp at hlen
  · intro o ho hp
    rw [ordersWithoutPayments]
    exact List.mem_map.2 ⟨o, List.mem_filter.2 ⟨ho, by simp [hp]⟩, rfl⟩
  · intro p hp hno
    rw [orphanPayments]
    refine List.mem_map.2 ⟨p, List.mem_filter.2 ⟨hp, ?_⟩, rfl⟩
    simp only [decide_eq_true_eq, List.any_eq_true, not_exists, not_and]
    intro o ho
    simpa using hno o ho

set_option maxRecDepth 100000 in
/-- Concrete instance of the amended C8 on a database with one exactly-paid
order, one unpaid order, and one orphan payment. -/
theorem C8_witness :
    (statusQuery exDB9).filter (fun r => r.order_id == (1 : Nat)) =
      [⟨1, itemTotal exDB9 ⟨1, 1, ⟨2006, 1, 10⟩, "delivered"⟩, some 10,
        if |itemTotal exDB9 ⟨1, 1, ⟨2006, 1, 10⟩, "delivered"⟩ - 10| < 1 / 100
        then "MATCH" else "MISMATCH",
        some |itemTotal exDB9 ⟨1, 1, ⟨2006, 1, 10⟩, "delivered"⟩ - 10|⟩] ∧
    ((2 : Nat), itemTotal exDB9 ⟨2, 1, ⟨2006, 1, 11⟩, "pending"⟩) ∈
      ordersWithoutPayments exDB9 ∧
    ((3 : Nat), (99 : Nat), (9 : Rat)) ∈ orphanPayments exDB9 := by
  have hnd : nodupOrderIds exDB9 := by unfold nodupOrderIds; decide
  refine ⟨?_, ?_, ?_⟩
  · have h := (C8_reconciliation exDB9 hnd).1 ⟨1, 1, ⟨2006, 1, 10⟩, "delivered"⟩
      (by decide) (by with_unfolding_all decide)
    have hps : paysOf exDB9 ⟨1, 1, ⟨2006, 1, 10⟩, "delivered"⟩ =
        [⟨1, 10, 1, "Card", ⟨2006, 1, 11⟩⟩] := by
      with_unfolding_all decide
    rw [hps] at h
    exact h
  · exact (C8_reconciliation exDB9 hnd).2.1 ⟨2, 1, ⟨2006, 1, 11⟩, "pending"⟩
      (by decide) (by with_unfolding_all decide)
  · exact (C8_reconciliation exDB9 hnd).2.2 ⟨3, 9, 99, "Card", ⟨2006, 1, 13⟩⟩
      (by decide) (by decide)

/-- C10: with distinct order ids, an order with no payment row yields
exactly one reconciliation row, classified `MISMATCH` by the `ELSE` branch
of the `CASE` (the `NULL` payment amount makes the comparison untrue) with
a `NULL` reported difference; the mismatching total counts exactly the
non-`MATCH` rows, so such an order makes it at least 1. -/
theorem C10_null_payment_mismatch (db : DB) (h : nodupOrderIds db) (o : Order)
    (ho : o ∈ db.orders) (hp : paysOf db o = []) :
    (statusQuery db).filter (fun r => r.order_id == o.order_id) =
      [⟨o.order_id, itemTotal db o, none, "MISMATCH", none⟩] ∧
    mismatchingCount db =
      ((statusQuery db).filter fun r => ¬ r.status_check == "MATCH").length ∧
    1 ≤ mismatchingCount db := by
  have h1 : (statusQuery db).filter (fun r => r.order_id == o.order_id) =
      [⟨o.order_id, itemTotal db o, none, "MISMATCH", none⟩] := by
    rw [statusQuery_rowsFor db h o ho, reconRowsForOrder, hp]
  have h2 : mismatchingCount db =
      ((statusQuery db).filter fun r => ¬ r.status_check == "MATCH").length := by
    rw [mismatchingCount, matchingCount]
    have ha := List.length_eq_countP_add_countP
      (fun r : ReconRow => r.status_check == "MATCH") (statusQuery db)
    have hb := List.countP_eq_length_filter
      (fun r : ReconRow => r.status_check == "MATCH") (statusQuery db)
    have hc := List.countP_eq_length_filter
      (fun r : ReconRow => ¬ r.status_check == "MATCH") (statusQuery db)
    omega
  refine ⟨h1, h2, ?_⟩
  have hmem : (⟨o.order_id, itemTotal db o, none, "MISMATCH", none⟩ : ReconRow) ∈
      (statusQuery db).filter (fun r => r.order_id == o.order_id) := by
    rw [h1]
    exact List.mem_singleton.2 rfl
  have hmem2 : (⟨o.order_id, itemTotal db o, none, "MISMATCH", none⟩ : ReconRow) ∈
      statusQuery db := List.mem_of_mem_filter hmem
  have hmem3 : (⟨o.order_id, itemTotal db o, none, "MISMATCH", none⟩ : ReconRow) ∈
      (statusQuery db).filter fun r => ¬ r.status_check == "MATCH" :=
    List.mem_filter.2 ⟨hmem2, by simp⟩
  rw [h2]
  exact List.length_pos.2 (List.ne_nil_of_mem hmem3)

/-- Concrete instance of C10: the unpaid order 2 of the mixed database is
reported as a `MISMATCH` row with `NULL` amount and difference. -/
theorem C10_witness :
    (statusQuery exDB9).filter (fun r => r.order_id == (2 : Nat)) =
      [⟨2, itemTotal exDB9 ⟨2, 1, ⟨2006, 1, 11⟩, "pending"⟩, none, "MISMATCH", none⟩] ∧
    1 ≤ mismatchingCount exDB9 := by
  have h := C10_null_payment_mismatch exDB9 (by unfold nodupOrderIds; decide)
    ⟨2, 1, ⟨2006, 1, 11⟩, "pending"⟩ (by decide) (by with_unfolding_all decide)
  exact ⟨h.1, h.2.2⟩

/-- The first row of the `LAG` query. -/
theorem lagQuery_getD_zero (db : DB) (h : 0 < (monthKeys db).length) :
    (lagQuery db).getD 0 dummyRow = mkLagRow db none ((monthKeys db).getD 0 (0, 0)) := by
  have hlt : 0 < (lagQuery db).length := by rw [lagQuery_length]; exact h
  rw [List.getD_eq_getElem _ _ hlt, List.getD_eq_getElem _ _ h]
  simp only [lagQuery, List.getElem_map, List.getElem_zip, List.getElem_cons_zero]

/-- A later row of the `LAG` query: the previous-row key is the preceding
month key. -/
theorem lagQuery_getD_succ (db : DB) (i : Nat) (h : i + 1 < (monthKeys db).length) :
    (lagQuery db).getD (i + 1) dummyRow =
      mkLagRow db (some ((monthKeys db).getD i (0, 0)))
        ((monthKeys db).getD (i + 1) (0, 0)) := by
  have hlt : i + 1 < (lagQuery db).length := by rw [lagQuery_length]; exact h
  have hi : i < (monthKeys db).length := by omega
  rw [List.getD_eq_getElem _ _ hlt, List.getD_eq_getElem _ _ h,
    List.getD_eq_getElem _ _ hi]
  simp only [lagQuery, List.getElem_map, List.getElem_zip, List.getElem_cons_succ]

set_option maxRecDepth 100000 in
/-- C4 as stated is false: on months with revenues 3 then 4, the reported
percent change is the 2-decimal rounding 33.33, not the exact value
(4 - 3) * 100 / 3 = 100/3 the claim asserts. -/
theorem C4_counterexample :
    ((lagQuery exDB3).getD 1 dummyRow).percent_change = 3333 / 100 ∧
    (3333 / 100 : Rat) ≠
      (total_revenue exDB3 (2006, 2) - total_revenue exDB3 (2006, 1)) * 100 /
        total_revenue exDB3 (2006, 1) := by
  have h1 : total_revenue exDB3 (2006, 1) = 3 := by with_unfolding_all decide
  have h2 : total_revenue exDB3 (2006, 2) = 4 := by with_unfolding_all decide
  have hm : monthKeys exDB3 = [(2006, 1), (2006, 2)] := by decide
  constructor
  · have hlen : 0 + 1 < (monthKeys exDB3).length := by rw [hm]; decide
    rw [lagQuery_getD_succ exDB3 0 hlen]
    simp only [mkLagRow, Option.map_some', hm, List.getD]
    norm_num [h1, h2]
    unfold sqlRound2
    rw [if_pos (by norm_num : (0 : Rat) ≤ 100 / 3)]
    have hf : ((100 : Rat) / 3 * 100 + 1 / 2).floor = (3333 : Int) := by
      with_unfolding_all decide
    rw [hf, Rat.divInt_eq_div]
    norm_num
  · rw [h1, h2]
    norm_num

/-- C4 amended: for the first month the reported percent change is 0, and
for every month whose previous month (the preceding row for the `LAG`
query, the same-year previous calendar month for the self-join query) has
positive revenue, the reported percent change is
`ROUND((current - previous) * 100.0 / previous, 2)` — the exact ratio
rounded to two decimal places. -/
theorem C4_percent_change_rounded (db : DB) :
    (0 < (monthKeys db).length →
      ((lagQuery db).getD 0 dummyRow).percent_change = 0) ∧
    (∀ i, i + 1 < (monthKeys db).length →
      0 < total_revenue db ((monthKeys db).getD i (0, 0)) →
      ((lagQuery db).getD (i + 1) dummyRow).percent_change =
        sqlRound2 ((total_revenue db ((monthKeys db).getD (i + 1) (0, 0)) -
          total_revenue db ((monthKeys db).getD i (0, 0))) * 100 /
          total_revenue db ((monthKeys db).getD i (0, 0)))) ∧
    (∀ k ∈ monthKeys db, (k.1, k.2 - 1) ∈ monthKeys db →
      0 < total_revenue db (k.1, k.2 - 1) →
      mkSelfRow db k ∈ selfJoinQuery db ∧
      (mkSelfRow db k).percent_change =
        sqlRound2 ((total_revenue db k - total_revenue db (k.1, k.2 - 1)) * 100 /
          total_revenue db (k.1, k.2 - 1))) := by
  refine ⟨?_, ?_, ?_⟩
  · intro h
    rw [lagQuery_getD_zero db h]
    rfl
  · intro i h hpos
    rw [lagQuery_getD_succ db i h]
    simp only [mkLagRow, Option.map_some']
    rw [if_pos hpos]
  · intro k hk hkp hpos
    refine ⟨List.mem_map_of_mem _ hk, ?_⟩
    simp only [mkSelfRow]
    rw [if_pos hkp]
    simp only []
    rw [if_pos hpos]

set_option maxRecDepth 100000 in
/-- Concrete instance of the amended C4 on months with revenues 3 then 4:
the first month reports 0 and the second reports the rounded ratio. -/
theorem C4_witness :
    0 < total_revenue exDB3 ((monthKeys exDB3).getD 0 (0, 0)) ∧
    ((lagQuery exDB3).getD 1 dummyRow).percent_change =
      sqlRound2 ((total_revenue exDB3 ((monthKeys exDB3).getD 1 (0, 0)) -
        total_revenue exDB3 ((monthKeys exDB3).getD 0 (0, 0))) * 100 /
        total_revenue exDB3 ((monthKeys exDB3).getD 0 (0, 0))) ∧
    ((lagQuery exDB3).getD 0 dummyRow).percent_change = 0 := by
  refine ⟨?_, ?_, ?_⟩
  · with_unfolding_all decide
  · exact (C4_percent_change_rounded exDB3).2.1 0 (by decide)
      (by with_unfolding_all decide)
  · exact (C4_percent_change_rounded exDB3).1 (by decide)

/-- Concrete instance of the amended C2: on consecutive months 2006-01 and
2006-02 the two queries agree. -/
theorem C2_witness : lagQuery exDB3 = selfJoinQuery exDB3 :=
  C2_trend_queries_agree exDB3 (by decide)
    (by
      have h : monthKeys exDB3 = [(2006, 1), (2006, 2)] := by decide
      rw [h]
      exact List.chain'_pair.2 ⟨rfl, rfl⟩)

end Ecom
